import Mathlib

/-!
Shallow embedding of `automatecm` (src/automatecm/main.py): the `Command`
entity and its resolver, the distro-family classifier, the JSON-backed
custom-command store (`ConfigManager`), and the registry merging built-in
and custom commands (`CommandRegistry`).  Interactive menu, printing and
process execution are out of scope.
-/

namespace Automatecm

/-- One catalog entry; mirrors the `Command` dataclass (main.py lines 55-65).
`commands` models the Python `Dict[str, str]` as an association list whose
keys are distinct, looked up first-match (equivalent to `dict.get` when keys
are distinct).  `aliasName` embeds the Python field `alias` (`alias` is a
reserved word in Lean). -/
structure Command where
  name : String
  description : String
  commands : List (String × String)
  requires_root : Bool := false
  is_custom : Bool := false
  aliasName : Option String := none
deriving DecidableEq

/-- `Command.get_cmd` (main.py line 64): `self.commands.get(family)`. -/
def Command.get_cmd (c : Command) (family : String) : Option String :=
  c.commands.lookup family

/-! ## Distro classification (main.py lines 18-44) -/

/-- Python's substring test `sub in s`, on the character sequence. -/
def strIn (sub s : String) : Bool :=
  s.toList.tails.any (fun t => sub.toList.isPrefixOf t)

def debianKeywords : List String := ["ubuntu", "debian", "mint", "pop", "kali"]

def redhatKeywords : List String := ["rhel", "fedora", "centos", "rocky", "alma"]

def archKeywords : List String := ["arch", "manjaro", "endeavour"]

def suseKeywords : List String := ["suse", "opensuse"]

/-- The classification performed by `detect_distro` (main.py lines 18-44), as a
pure function of the parsed `/etc/os-release` mapping.  A missing or unreadable
source corresponds to the empty mapping: the bare `except` arm returns
`("unknown", "Unknown Linux")`, which coincides with `classify []`. -/
def classify (data : List (String × String)) : String × String :=
  let distro_id := ((data.lookup "ID").getD "").toLower
  let distro_like := ((data.lookup "ID_LIKE").getD "").toLower
  let distro_name := (data.lookup "PRETTY_NAME").getD "Unknown Linux"
  let check := distro_id ++ " " ++ distro_like
  if debianKeywords.any (fun x => strIn x check) then ("debian", distro_name)
  else if redhatKeywords.any (fun x => strIn x check) then ("redhat", distro_name)
  else if archKeywords.any (fun x => strIn x check) then ("arch", distro_name)
  else if suseKeywords.any (fun x => strIn x check) then ("suse", distro_name)
  else ("unknown", distro_name)

/-- The lower-cased `"ID ID_LIKE"` string the keyword tests run against
(main.py line 33). -/
def checkOf (data : List (String × String)) : String :=
  ((data.lookup "ID").getD "").toLower ++ " " ++ ((data.lookup "ID_LIKE").getD "").toLower

/-- The four keyword sets in the spec's fixed priority order:
debian-like, then redhat-like, then arch-like, then suse-like. -/
def familyTable : List (List String × String) :=
  [(debianKeywords, "debian"), (redhatKeywords, "redhat"),
   (archKeywords, "arch"), (suseKeywords, "suse")]

/-- The spec's classification rule, stated from the spec's words for comparison
with `classify`: test the check string against the four keyword sets in fixed
priority order, first match wins, no match means `unknown`. -/
def specFamily (check : String) : String :=
  match familyTable.find? (fun p => p.1.any (fun x => strIn x check)) with
  | some p => p.2
  | none => "unknown"

/-! ## ConfigManager (main.py lines 68-130)

The persisted file `~/.config/automatecm/custom_commands.json` is modelled by
`FileState`.  Its byte content is identified with the parsed list of JSON
objects: `json.dump(..., indent=2)` is deterministic, so equal record lists
correspond to byte-for-byte equal files, and `asdict` writes the dataclass
fields in declaration order. -/

/-- One persisted JSON object as `json.load` hands it to `Command(**cmd)`
(main.py line 83).  An `Option` field records whether the corresponding key is
present; `aliasName?` distinguishes an absent `alias` key (`none`) from a
present `null` (`some none`).  `hasUnknownKey` records whether the object
carries a key that is not a `Command` field, which makes `Command(**cmd)`
raise `TypeError`.  (Values of the wrong JSON type are outside this model:
Python dataclasses do not check field types.) -/
structure RawRecord where
  name? : Option String := none
  description? : Option String := none
  commands? : Option (List (String × String)) := none
  requires_root? : Option Bool := none
  is_custom? : Option Bool := none
  aliasName? : Option (Option String) := none
  hasUnknownKey : Bool := false
deriving DecidableEq

/-- `Command(**cmd)`: fails (raises `TypeError`, modelled as `none`) when a
field without a default (`name`, `description`, `commands`) is absent or an
unexpected key is present; absent defaulted fields take the dataclass defaults
`requires_root=False`, `is_custom=False`, `alias=None`. -/
def parseRecord (r : RawRecord) : Option Command :=
  if r.hasUnknownKey then none
  else
    match r.name?, r.description?, r.commands? with
    | some n, some d, some cs =>
        some { name := n, description := d, commands := cs,
               requires_root := r.requires_root?.getD false,
               is_custom := r.is_custom?.getD false,
               aliasName := r.aliasName?.getD none }
    | _, _, _ => none

/-- `asdict(cmd)` (main.py line 90): every field of the dataclass is written. -/
def toRecord (c : Command) : RawRecord :=
  { name? := some c.name, description? := some c.description,
    commands? := some c.commands, requires_root? := some c.requires_root,
    is_custom? := some c.is_custom, aliasName? := some c.aliasName,
    hasUnknownKey := false }

/-- The comprehension `[Command(**cmd) for cmd in data]` inside the `try`
block: a single failing record raises and aborts the whole comprehension. -/
def parseAll : List RawRecord → Option (List Command)
  | [] => some []
  | r :: rs =>
    match parseRecord r, parseAll rs with
    | some c, some cs => some (c :: cs)
    | _, _ => none

/-- State of the persisted file.  `missing`: the path does not exist.
`malformed`: contents that `json.load` rejects, or a JSON value that is not a
list of objects (including a truncated, partially written file).  `records`:
a JSON list of objects. -/
inductive FileState where
  | missing
  | malformed
  | records (rs : List RawRecord)
deriving DecidableEq

/-- `ConfigManager.load_custom` (main.py lines 76-85): `[]` when the file does
not exist; parse everything inside `try`, any failure degrades the whole load
to `[]`. -/
def loadCustom : FileState → List Command
  | .missing => []
  | .malformed => []
  | .records rs =>
    match parseAll rs with
    | some cs => cs
    | none => []

/-- The record list `save_custom` writes (main.py line 90):
`[asdict(cmd) for cmd in commands if cmd.is_custom]`. -/
def serializeCustom (cmds : List Command) : List RawRecord :=
  (cmds.filter (fun c => c.is_custom)).map toRecord

/-- `ConfigManager.save_custom` (main.py lines 87-94), successful path: the
file now holds exactly the serialized user-defined entries. -/
def saveCustom (cmds : List Command) : FileState :=
  .records (serializeCustom cmds)

/-- Injectable I/O outcome for a `save_custom` call. -/
inductive WriteOutcome where
  | ok
  | openFail
  | midCrash
deriving DecidableEq

/-- `save_custom` (main.py lines 87-94) under an injected I/O outcome.  The
code opens the target file itself with mode `w` (which truncates it) and then
runs `json.dump`; there is no temporary file, and the `except` arm prints a
message and returns `None` (callers receive no success/failure value).
`openFail`: `open` raises before truncation — the old contents survive.
`midCrash`: the write is interrupted after `open` truncated the file but
before `json.dump` finished — the file is left truncated or partially
written, i.e. malformed. -/
def saveCustomWith (cmds : List Command) (o : WriteOutcome) (fs : FileState) : FileState :=
  match o with
  | .ok => saveCustom cmds
  | .openFail => fs
  | .midCrash => .malformed

/-- The universal `Command` built by `add_custom` (main.py lines 105-115):
the same text for every family key, `is_custom=True`, the given alias. -/
def mkCustom (a n d cmd : String) (root : Bool) : Command :=
  { name := n, description := d,
    commands := [("debian", cmd), ("redhat", cmd),
                 ("arch", cmd), ("suse", cmd), ("unknown", cmd)],
    requires_root := root, is_custom := true, aliasName := some a }

/-- `ConfigManager.add_custom` (main.py lines 96-119): load, reject when some
loaded entry already has this alias (no write), otherwise append and save.
Returns the Python return value paired with the resulting file state. -/
def addCustom (a n d cmd : String) (root : Bool) (fs : FileState) : Bool × FileState :=
  let commands := loadCustom fs
  if commands.any (fun c => c.aliasName == some a) then (false, fs)
  else (true, saveCustom (commands ++ [mkCustom a n d cmd root]))

/-- `ConfigManager.remove_custom` (main.py lines 121-130): load, filter out the
matching alias, fail without writing when nothing was removed, otherwise save
the filtered list. -/
def removeCustom (a : String) (fs : FileState) : Bool × FileState :=
  let commands := loadCustom fs
  let filtered := commands.filter (fun c => c.aliasName != some a)
  if commands.length = filtered.length then (false, fs)
  else (true, saveCustom filtered)

/-! ## CommandRegistry (main.py lines 133-227) -/

/-- The ten built-in commands registered by `_register_builtin` (main.py lines
142-217).  `Command(name, desc, cmds, root)` leaves the defaults
`is_custom=False` and `alias=None`. -/
def builtins : List Command :=
  [{ name := "System Update", description := "Update system packages",
     commands := [("debian", "sudo apt update && sudo apt upgrade -y"),
                  ("redhat", "sudo dnf update -y"),
                  ("arch", "sudo pacman -Syu --noconfirm"),
                  ("suse", "sudo zypper update -y")],
     requires_root := true },
   { name := "Clean Cache", description := "Clean package cache",
     commands := [("debian", "sudo apt clean && sudo apt autoremove -y"),
                  ("redhat", "sudo dnf clean all && sudo dnf autoremove -y"),
                  ("arch", "sudo pacman -Sc --noconfirm"),
                  ("suse", "sudo zypper clean -a")],
     requires_root := true },
   { name := "System Info", description := "Display system information",
     commands := [("debian", "neofetch || (sudo apt install -y neofetch && neofetch)"),
                  ("redhat", "neofetch || (sudo dnf install -y neofetch && neofetch)"),
                  ("arch", "neofetch || (sudo pacman -S --noconfirm neofetch && neofetch)"),
                  ("suse", "neofetch || (sudo zypper install -y neofetch && neofetch)")],
     requires_root := false },
   { name := "Disk Usage", description := "Analyze disk usage",
     commands := [("debian", "df -h && echo '\n--- Top 10 Largest Directories ---' && sudo du -h / 2>/dev/null | sort -rh | head -10"),
                  ("redhat", "df -h && echo '\n--- Top 10 Largest Directories ---' && sudo du -h / 2>/dev/null | sort -rh | head -10"),
                  ("arch", "df -h && echo '\n--- Top 10 Largest Directories ---' && sudo du -h / 2>/dev/null | sort -rh | head -10"),
                  ("suse", "df -h && echo '\n--- Top 10 Largest Directories ---' && sudo du -h / 2>/dev/null | sort -rh | head -10")],
     requires_root := false },
   { name := "Network Info", description := "Show network details",
     commands := [("debian", "ip addr show && echo '\n--- Gateway ---' && ip route | grep default"),
                  ("redhat", "ip addr show && echo '\n--- Gateway ---' && ip route | grep default"),
                  ("arch", "ip addr show && echo '\n--- Gateway ---' && ip route | grep default"),
                  ("suse", "ip addr show && echo '\n--- Gateway ---' && ip route | grep default")],
     requires_root := false },
   { name := "Running Services", description := "List active services",
     commands := [("debian", "systemctl list-units --type=service --state=running"),
                  ("redhat", "systemctl list-units --type=service --state=running"),
                  ("arch", "systemctl list-units --type=service --state=running"),
                  ("suse", "systemctl list-units --type=service --state=running")],
     requires_root := false },
   { name := "Memory Usage", description := "Display memory info",
     commands := [("debian", "free -h && echo '\n--- Top 10 Memory Consumers ---' && ps aux --sort=-%mem | head -11"),
                  ("redhat", "free -h && echo '\n--- Top 10 Memory Consumers ---' && ps aux --sort=-%mem | head -11"),
                  ("arch", "free -h && echo '\n--- Top 10 Memory Consumers ---' && ps aux --sort=-%mem | head -11"),
                  ("suse", "free -h && echo '\n--- Top 10 Memory Consumers ---' && ps aux --sort=-%mem | head -11")],
     requires_root := false },
   { name := "Failed Services", description := "Check failed services",
     commands := [("debian", "systemctl --failed"),
                  ("redhat", "systemctl --failed"),
                  ("arch", "systemctl --failed"),
                  ("suse", "systemctl --failed")],
     requires_root := false },
   { name := "System Logs", description := "View recent error logs",
     commands := [("debian", "journalctl -p err -b --no-pager | tail -50"),
                  ("redhat", "journalctl -p err -b --no-pager | tail -50"),
                  ("arch", "journalctl -p err -b --no-pager | tail -50"),
                  ("suse", "journalctl -p err -b --no-pager | tail -50")],
     requires_root := false },
   { name := "Security Updates", description := "Install security patches",
     commands := [("debian", "sudo apt update && sudo unattended-upgrade -d"),
                  ("redhat", "sudo dnf update --security -y"),
                  ("arch", "sudo pacman -Syu --noconfirm"),
                  ("suse", "sudo zypper patch -y")],
     requires_root := true }]

/-- `CommandRegistry.__init__` (main.py lines 136-140): built-ins first, then
whatever `load_custom()` returns. -/
def registryInit (fs : FileState) : List Command :=
  builtins ++ loadCustom fs

/-- `CommandRegistry.reload` (main.py lines 222-224): drop every `is_custom`
entry, keep the rest in order, extend with a fresh load. -/
def reload (cs : List Command) (fs : FileState) : List Command :=
  cs.filter (fun c => !c.is_custom) ++ loadCustom fs

/-- `CommandRegistry.get` (main.py lines 226-227):
`self.commands[idx] if 0 <= idx < len(self.commands) else None`. -/
def getIdx (cs : List Command) (idx : Int) : Option Command :=
  if h : 0 ≤ idx ∧ idx < (cs.length : Int) then
    some (cs.get ⟨idx.toNat, by omega⟩)
  else none

/-! ## The spec's alias invariant -/

/-- The spec's invariant on a command sequence: among the user-defined
entries, aliases are present, non-empty, and pairwise distinct. -/
def aliasInv (cmds : List Command) : Prop :=
  (∀ c ∈ cmds, c.is_custom = true → c.aliasName ≠ none ∧ c.aliasName ≠ some "") ∧
  ((cmds.filter (fun c => c.is_custom)).map (fun c => c.aliasName)).Nodup

instance (cmds : List Command) : Decidable (aliasInv cmds) := by
  unfold aliasInv; infer_instance

/-- A hand-edited persisted record that parses but carries
`"is_custom": false`. -/
def strayRecord : RawRecord :=
  { name? := some "n", description? := some "d",
    commands? := some [("debian", "x")],
    is_custom? := some false, aliasName? := some (some "x") }

/-! ## Basic lemmas about the store -/

theorem parseRecord_toRecord (c : Command) : parseRecord (toRecord c) = some c := rfl

theorem parseAll_map_toRecord (l : List Command) : parseAll (l.map toRecord) = some l := by
  induction l with
  | nil => rfl
  | cons c cs ih => simp [parseAll, parseRecord_toRecord, ih]

/-- What `load_custom` sees right after a successful `save_custom`. -/
theorem loadCustom_saveCustom (cmds : List Command) :
    loadCustom (saveCustom cmds) = cmds.filter (fun c => c.is_custom) := by
  simp [loadCustom, saveCustom, serializeCustom, parseAll_map_toRecord]

theorem parseAll_eq_none_of_mem {rs : List RawRecord} {r : RawRecord}
    (hr : r ∈ rs) (hp : parseRecord r = none) : parseAll rs = none := by
  induction rs with
  | nil => cases hr
  | cons a as ih =>
    rcases List.mem_cons.mp hr with h | h
    · subst h; simp [parseAll, hp]
    · rw [parseAll, ih h]
      cases parseRecord a <;> rfl

theorem parseRecord_none_of_missing (r : RawRecord)
    (h : r.name? = none ∨ r.description? = none ∨ r.commands? = none) :
    parseRecord r = none := by
  obtain ⟨n?, d?, c?, rr?, ic?, al?, unk⟩ := r
  cases unk <;> cases n? <;> cases d? <;> cases c? <;> simp_all [parseRecord]

theorem length_filter_add_countP_not {α : Type} (p : α → Bool) (l : List α) :
    (l.filter p).length + l.countP (fun x => !p x) = l.length := by
  induction l with
  | nil => rfl
  | cons a as ih =>
    by_cases h : p a = true
    · simp [List.filter_cons, List.countP_cons, h]
      omega
    · simp [List.filter_cons, List.countP_cons, h]
      omega

/-- Under pairwise-distinct aliases, at most one entry matches a given alias. -/
theorem countP_alias_le_one {l : List Command}
    (hnd : (l.map (fun c => c.aliasName)).Nodup) (a : String) :
    l.countP (fun c => c.aliasName == some a) ≤ 1 := by
  induction l with
  | nil => simp
  | cons c cs ih =>
    rw [List.map_cons, List.nodup_cons] at hnd
    rw [List.countP_cons]
    by_cases h : (c.aliasName == some a) = true
    · have ha : c.aliasName = some a := by simpa using h
      have hzero : cs.countP (fun x => x.aliasName == some a) = 0 := by
        rw [List.countP_eq_zero]
        intro x hx hpx
        have hxa : x.aliasName = some a := by simpa using hpx
        exact hnd.1 (ha ▸ hxa ▸ List.mem_map_of_mem _ hx)
      rw [if_pos h, hzero]
    · rw [if_neg h]
      have := ih hnd.2
      omega

theorem aliasInv_append_mk {l : List Command} (a n d t : String) (r : Bool)
    (hinv : aliasInv l) (ha : a ≠ "")
    (hnotin : ∀ c ∈ l, c.aliasName ≠ some a) :
    aliasInv (l ++ [mkCustom a n d t r]) := by
  constructor
  · intro c hc hcust
    rcases List.mem_append.mp hc with h | h
    · exact hinv.1 c h hcust
    · have hce : c = mkCustom a n d t r := by simpa using h
      subst hce
      exact ⟨by simp [mkCustom], by simp [mkCustom, ha]⟩
  · rw [List.filter_append, List.map_append]
    have hmk : List.filter (fun c => c.is_custom) [mkCustom a n d t r] =
        [mkCustom a n d t r] := by simp [mkCustom]
    rw [hmk]
    have hnot : (some a : Option String) ∉
        (l.filter (fun c => c.is_custom)).map (fun c => c.aliasName) := by
      intro hmem
      obtain ⟨c, hc, hca⟩ := List.mem_map.mp hmem
      exact hnotin c (List.mem_of_mem_filter hc) hca
    simp only [List.map_cons, List.map_nil, mkCustom]
    exact List.Nodup.append hinv.2 (List.nodup_singleton _)
      (List.disjoint_singleton.mpr hnot)

theorem aliasInv_filter (p : Command → Bool) {l : List Command}
    (h : aliasInv l) : aliasInv (l.filter p) := by
  constructor
  · intro c hc hcust
    exact h.1 c (List.mem_of_mem_filter hc) hcust
  · have hs : List.Sublist ((l.filter p).filter (fun c => c.is_custom))
        (l.filter (fun c => c.is_custom)) :=
      (List.filter_sublist _).filter _
    exact h.2.sublist (hs.map _)

/-! ## Claim theorems -/

/-- C5: `classify` is a pure total function; it tests the lower-cased
concatenation of the `ID` and `ID_LIKE` fields against the four fixed keyword
sets in the fixed priority order debian, redhat, arch, suse with first match
winning, yields `unknown` when nothing matches, and the display name is the
`PRETTY_NAME` field when present and `"Unknown Linux"` otherwise. -/
theorem classify_spec (data : List (String × String)) :
    classify data =
      (specFamily (checkOf data), (data.lookup "PRETTY_NAME").getD "Unknown Linux") := by
  simp only [classify, specFamily, familyTable, checkOf, List.find?]
  by_cases h1 : (debianKeywords.any fun x =>
      strIn x (((data.lookup "ID").getD "").toLower ++ " " ++
        ((data.lookup "ID_LIKE").getD "").toLower)) = true
  · simp [h1]
  · simp only [Bool.not_eq_true] at h1
    by_cases h2 : (redhatKeywords.any fun x =>
        strIn x (((data.lookup "ID").getD "").toLower ++ " " ++
          ((data.lookup "ID_LIKE").getD "").toLower)) = true
    · simp [h1, h2]
    · simp only [Bool.not_eq_true] at h2
      by_cases h3 : (archKeywords.any fun x =>
          strIn x (((data.lookup "ID").getD "").toLower ++ " " ++
            ((data.lookup "ID_LIKE").getD "").toLower)) = true
      · simp [h1, h2, h3]
      · simp only [Bool.not_eq_true] at h3
        by_cases h4 : (suseKeywords.any fun x =>
            strIn x (((data.lookup "ID").getD "").toLower ++ " " ++
              ((data.lookup "ID_LIKE").getD "").toLower)) = true
        · simp [h1, h2, h3, h4]
        · simp only [Bool.not_eq_true] at h4
          simp [h1, h2, h3, h4]

/-- C9: round-trip — persisted content previously written by `save_custom` is
reproduced byte-for-byte by `save_custom (load_custom ())` (file bytes are
identified with the serialized record list, `json.dump` being deterministic). -/
theorem save_load_roundtrip (cmds : List Command) :
    saveCustom (loadCustom (saveCustom cmds)) = saveCustom cmds := by
  rw [loadCustom_saveCustom]
  simp [saveCustom, serializeCustom, List.filter_filter]

/-- C2: `save_custom` does not follow a write-to-temp-then-replace discipline —
it truncates the target file itself before writing, so an interrupted write
leaves the persisted file malformed, which is neither the previous content nor
the fully updated content; the failure arm only prints and returns `None`. -/
theorem saveCustom_midCrash_corrupts :
    saveCustomWith [] .midCrash
        (.records [toRecord (mkCustom "bk" "n" "d" "t" false)]) = .malformed ∧
    (FileState.malformed ≠
      FileState.records [toRecord (mkCustom "bk" "n" "d" "t" false)]) ∧
    (FileState.malformed ≠
      saveCustomWith [] .ok (.records [toRecord (mkCustom "bk" "n" "d" "t" false)])) := by
  refine ⟨rfl, by decide, by decide⟩

/-- C8: `CommandRegistry.get` is a safe zero-based positional lookup — it
returns the element at the index when `0 ≤ idx < length` and `None` for every
other integer index, for catalogs of any length including zero. -/
theorem getIdx_safe (cs : List Command) (i : Int) :
    (0 ≤ i → i < (cs.length : Int) → getIdx cs i = cs[i.toNat]?) ∧
    (¬(0 ≤ i ∧ i < (cs.length : Int)) → getIdx cs i = none) := by
  constructor
  · intro h1 h2
    have hb : i.toNat < cs.length := by omega
    simp [getIdx, h1, h2, List.getElem?_eq_getElem hb]
  · intro h
    simp only [getIdx]
    rw [dif_neg h]

/-- Witness for C8 at a singleton catalog: index 0 is found, index 5 and the
negative index are "not found". -/
theorem getIdx_safe_witness :
    getIdx [mkCustom "b" "n" "d" "t" false] 0 =
      [mkCustom "b" "n" "d" "t" false][(0 : Int).toNat]? ∧
    getIdx [mkCustom "b" "n" "d" "t" false] 5 = none ∧
    getIdx ([] : List Command) 0 = none :=
  ⟨(getIdx_safe [mkCustom "b" "n" "d" "t" false] 0).1 (by decide) (by decide),
   (getIdx_safe [mkCustom "b" "n" "d" "t" false] 5).2 (by decide),
   (getIdx_safe [] 0).2 (by decide)⟩

/-- C10: every built-in entry's variants mapping has exactly the keys debian,
redhat, arch, suse — the unknown tag is absent, so `get_cmd "unknown"` is
`None` for all ten — while every command built by `add_custom` resolves under
the unknown tag to its (universal) text and is user-defined. -/
theorem builtin_unknown_unsupported :
    (builtins.all (fun c =>
        (c.get_cmd "unknown" == none) &&
        (c.commands.map Prod.fst == ["debian", "redhat", "arch", "suse"])) = true) ∧
    (∀ a n d t r, (mkCustom a n d t r).get_cmd "unknown" = some t ∧
        (mkCustom a n d t r).is_custom = true) :=
  ⟨by decide, fun a n d t r => ⟨rfl, rfl⟩⟩

/-- C3 as stated is too strong: `load_custom` does not force `isUserDefined`
on what it parses — a persisted record carrying `"is_custom": false` is
accepted and returned as a non-user-defined entry. -/
theorem loadCustom_not_all_user_defined :
    loadCustom (.records [strayRecord]) ≠ [] ∧
    ¬(∀ c ∈ loadCustom (.records [strayRecord]), c.is_custom = true) := by
  decide

/-- C3 (amended): `load_custom` returns the empty sequence when the file is
missing or malformed, or when any record fails to build a `Command` (the whole
load degrades, never a partial parse); a record missing one of the required
fields name/description/variants fails to build; and every entry loaded back
from content written by `save_custom` is user-defined.  (`isUserDefined` on a
loaded entry is whatever the record carries, defaulting to false when absent —
it is not forced to true for arbitrary storage states.) -/
theorem loadCustom_degrades :
    loadCustom .missing = [] ∧
    loadCustom .malformed = [] ∧
    (∀ (rs : List RawRecord) (r : RawRecord), r ∈ rs → parseRecord r = none →
        loadCustom (.records rs) = []) ∧
    (∀ r : RawRecord, r.name? = none ∨ r.description? = none ∨ r.commands? = none →
        parseRecord r = none) ∧
    (∀ cmds : List Command, ∀ c ∈ loadCustom (saveCustom cmds), c.is_custom = true) := by
  refine ⟨rfl, rfl, ?_, parseRecord_none_of_missing, ?_⟩
  · intro rs r hr hp
    simp [loadCustom, parseAll_eq_none_of_mem hr hp]
  · intro cmds c hc
    rw [loadCustom_saveCustom] at hc
    exact (List.mem_filter.mp hc).2

/-- Witness for C3 (amended): a record with every field absent aborts the
whole load. -/
theorem loadCustom_degrades_witness :
    loadCustom (FileState.records [({} : RawRecord)]) = ([] : List Command) :=
  loadCustom_degrades.2.2.1 [({} : RawRecord)] ({} : RawRecord) (by decide) (by decide)

/-- C4: on a catalog made of the built-in prefix followed by user-defined
entries, `reload` removes exactly the user-defined suffix and appends a fresh
load — the ten built-ins are kept, in order, untouched. -/
theorem reload_keeps_builtins (fs : FileState) (prev : List Command)
    (hprev : ∀ c ∈ prev, c.is_custom = true) :
    reload (builtins ++ prev) fs = builtins ++ loadCustom fs ∧
    builtins.length = 10 ∧
    (∀ c ∈ builtins, c.is_custom = false) := by
  refine ⟨?_, rfl, by decide⟩
  have h1 : builtins.filter (fun c => !c.is_custom) = builtins := by
    rw [List.filter_eq_self]
    decide
  have h2 : prev.filter (fun c => !c.is_custom) = [] := by
    rw [List.filter_eq_nil_iff]
    intro c hc
    simp [hprev c hc]
  simp only [reload]
  rw [List.filter_append, h1, h2, List.append_nil]

/-- Witness for C4: reloading a catalog holding one custom entry against a
missing file leaves exactly the built-ins. -/
theorem reload_keeps_builtins_witness :
    reload (builtins ++ [mkCustom "x" "n" "d" "t" false]) .missing =
      builtins ++ loadCustom .missing :=
  (reload_keeps_builtins .missing [mkCustom "x" "n" "d" "t" false]
    (by decide)).1

/-- C7: a successful `add_custom` returns success and persists the previous
user-defined entries followed by a new command that carries the given alias,
is user-defined, and maps every one of the five family tags to the identical
given text. -/
theorem addCustom_universal (fs : FileState) (a n d t : String) (r : Bool)
    (h : ∀ c ∈ loadCustom fs, c.aliasName ≠ some a) :
    (addCustom a n d t r fs).1 = true ∧
    loadCustom (addCustom a n d t r fs).2 =
      (loadCustom fs).filter (fun c => c.is_custom) ++ [mkCustom a n d t r] ∧
    (mkCustom a n d t r).is_custom = true ∧
    (mkCustom a n d t r).aliasName = some a ∧
    (∀ fam ∈ ["debian", "redhat", "arch", "suse", "unknown"],
        (mkCustom a n d t r).get_cmd fam = some t) := by
  have hany : (loadCustom fs).any (fun c => c.aliasName == some a) = false := by
    rw [List.any_eq_false]
    intro c hc
    simpa using h c hc
  refine ⟨?_, ?_, rfl, rfl, ?_⟩
  · simp [addCustom, hany]
  · simp [addCustom, hany, loadCustom_saveCustom, List.filter_append, mkCustom]
  · intro fam hfam
    fin_cases hfam <;> rfl

/-- Witness for C7: the spec's scenario — adding `bkp` to empty storage
persists exactly one universal record. -/
theorem addCustom_universal_witness :
    (addCustom "bkp" "Backup Home" "tar home dir" "tar czf /tmp/home.tgz /home"
        false FileState.missing).1 = true ∧
    loadCustom (addCustom "bkp" "Backup Home" "tar home dir"
        "tar czf /tmp/home.tgz /home" false FileState.missing).2 =
      [mkCustom "bkp" "Backup Home" "tar home dir" "tar czf /tmp/home.tgz /home" false] := by
  have h := addCustom_universal FileState.missing "bkp" "Backup Home" "tar home dir"
    "tar czf /tmp/home.tgz /home" false (by decide)
  exact ⟨h.1, by rw [h.2.1]; rfl⟩

/-- C1 is too strong as stated: `ConfigManager.add_custom` itself accepts an
empty alias — called on a store satisfying the invariant, it succeeds, writes,
and the persisted set now holds a user-defined entry whose alias is the empty
string. -/
theorem addCustom_empty_alias_breaks_invariant :
    aliasInv (loadCustom (FileState.records [])) ∧
    (addCustom "" "n" "d" "t" false (FileState.records [])).1 = true ∧
    ¬aliasInv (loadCustom (addCustom "" "n" "d" "t" false (FileState.records [])).2) := by
  decide

/-- C1 (amended): among user-defined persisted entries, alias values are
pairwise distinct and non-empty, and `add_custom` with an alias already
present in the loaded set always returns failure and performs no write; every
store operation preserves the invariant, with the non-emptiness part
guaranteed provided the alias handed to `add_custom` is non-empty — the store
itself does not reject an empty alias (the interactive front-end rejects it
before calling). -/
theorem configStore_alias_invariant (fs : FileState) (a n d t : String) (r : Bool)
    (hinv : aliasInv (loadCustom fs)) :
    ((loadCustom fs).any (fun c => c.aliasName == some a) = true →
        addCustom a n d t r fs = (false, fs)) ∧
    (a ≠ "" → aliasInv (loadCustom (addCustom a n d t r fs).2)) ∧
    (∀ x, aliasInv (loadCustom (removeCustom x fs).2)) ∧
    (∀ cmds : List Command, aliasInv cmds → aliasInv (loadCustom (saveCustom cmds))) := by
  refine ⟨?_, ?_, ?_, ?_⟩
  · intro hdup
    simp [addCustom, hdup]
  · intro ha
    by_cases hdup : (loadCustom fs).any (fun c => c.aliasName == some a) = true
    · simpa [addCustom, hdup] using hinv
    · rw [Bool.not_eq_true] at hdup
      have hnotin : ∀ c ∈ loadCustom fs, c.aliasName ≠ some a := by
        intro c hc
        simpa using List.any_eq_false.mp hdup c hc
      simp only [addCustom, hdup, Bool.false_eq_true, if_false]
      rw [loadCustom_saveCustom]
      exact aliasInv_filter _ (aliasInv_append_mk a n d t r hinv ha hnotin)
  · intro x
    by_cases hlen : (loadCustom fs).length =
        ((loadCustom fs).filter (fun c => c.aliasName != some x)).length
    · simpa [removeCustom, hlen] using hinv
    · simp only [removeCustom]
      rw [if_neg hlen, loadCustom_saveCustom]
      exact aliasInv_filter _ (aliasInv_filter _ hinv)
  · intro cmds h
    rw [loadCustom_saveCustom]
    exact aliasInv_filter _ h

/-- Witness for C1 (amended): on a store holding the alias `x`, adding `x`
again fails and leaves the file untouched. -/
theorem configStore_alias_invariant_witness :
    addCustom "x" "n" "d" "t" false (saveCustom [mkCustom "x" "n" "d" "t" false]) =
      (false, saveCustom [mkCustom "x" "n" "d" "t" false]) :=
  (configStore_alias_invariant (saveCustom [mkCustom "x" "n" "d" "t" false])
      "x" "n" "d" "t" false (by decide)).1 (by decide)

/-- C6: `remove_custom` with an alias matching no loaded entry returns failure
and performs no write; with a matching alias it returns success and the
persisted set afterwards is the loaded sequence with exactly the matching
entry filtered out — all other entries unchanged, order preserved, length down
by one (hypotheses: the persisted entries are user-defined and satisfy the
alias invariant, as every set written by this store does). -/
theorem removeCustom_spec (fs : FileState) (a : String)
    (hcustom : ∀ c ∈ loadCustom fs, c.is_custom = true)
    (hinv : aliasInv (loadCustom fs)) :
    ((∀ c ∈ loadCustom fs, c.aliasName ≠ some a) → removeCustom a fs = (false, fs)) ∧
    (∀ c ∈ loadCustom fs, c.aliasName = some a →
      (removeCustom a fs).1 = true ∧
      loadCustom (removeCustom a fs).2 =
        (loadCustom fs).filter (fun c => c.aliasName != some a) ∧
      (loadCustom (removeCustom a fs).2).length + 1 = (loadCustom fs).length) := by
  constructor
  · intro hno
    have hfe : (loadCustom fs).filter (fun c => c.aliasName != some a) = loadCustom fs := by
      rw [List.filter_eq_self]
      intro c hc
      simpa using hno c hc
    simp [removeCustom, hfe]
  · intro c hc hca
    have hfl : (loadCustom fs).filter (fun c => c.is_custom) = loadCustom fs :=
      List.filter_eq_self.mpr hcustom
    have hnodup : ((loadCustom fs).map (fun c => c.aliasName)).Nodup := by
      have h2 := hinv.2
      rwa [hfl] at h2
    have hle : (loadCustom fs).countP (fun c => c.aliasName == some a) ≤ 1 :=
      countP_alias_le_one hnodup a
    have hpos : 0 < (loadCustom fs).countP (fun c => c.aliasName == some a) :=
      List.countP_pos_iff.mpr ⟨c, hc, by simp [hca]⟩
    have hcountP : (loadCustom fs).countP (fun c => c.aliasName == some a) = 1 := by
      omega
    have hsplit : ((loadCustom fs).filter (fun c => c.aliasName != some a)).length +
        (loadCustom fs).countP (fun c => !(c.aliasName != some a)) =
        (loadCustom fs).length :=
      length_filter_add_countP_not _ _
    have hnn : (loadCustom fs).countP (fun c => !(c.aliasName != some a)) = 1 := by
      rw [← hcountP]
      congr 1
      funext y
      simp [bne]
    have hne : ¬((loadCustom fs).length =
        ((loadCustom fs).filter (fun c => c.aliasName != some a)).length) := by
      omega
    have hres : removeCustom a fs =
        (true, saveCustom ((loadCustom fs).filter (fun c => c.aliasName != some a))) := by
      simp [removeCustom, hne]
    have hload : loadCustom (removeCustom a fs).2 =
        (loadCustom fs).filter (fun c => c.aliasName != some a) := by
      rw [hres, loadCustom_saveCustom]
      exact List.filter_eq_self.mpr
        (fun x hx => hcustom x (List.mem_of_mem_filter hx))
    refine ⟨by rw [hres], hload, ?_⟩
    rw [hload]
    omega

/-- Witness for C6: on a store holding exactly the alias `x`, removing `y`
fails without a write and removing `x` succeeds. -/
theorem removeCustom_spec_witness :
    removeCustom "y" (saveCustom [mkCustom "x" "n" "d" "t" false]) =
      (false, saveCustom [mkCustom "x" "n" "d" "t" false]) ∧
    (removeCustom "x" (saveCustom [mkCustom "x" "n" "d" "t" false])).1 = true :=
  ⟨(removeCustom_spec (saveCustom [mkCustom "x" "n" "d" "t" false]) "y"
      (by decide) (by decide)).1 (by decide),
   ((removeCustom_spec (saveCustom [mkCustom "x" "n" "d" "t" false]) "x"
      (by decide) (by decide)).2 (mkCustom "x" "n" "d" "t" false)
      (by decide) (by decide)).1⟩

end Automatecm
